import Mathlib

/-! HopeConnect: the donations data-access layer.

A shallow embedding of `backend/src/db/api/donations.js` (class `DonationsDBApi`).

* JavaScript values are the first-order values that reach this layer (`JSVal`).
  Numbers are integers: fractional numbers are outside the model. The numbers the
  pagination arithmetic produces (`Num`) are `NaN`, the infinities and the integers,
  and a product is rounded as a double is (`roundInt`).
* The coercion of a string to a number is the language runtime's; it is a parameter
  (`Runtime.stringToNumber`).
* The `where` object handed to the storage backend is a JavaScript object, modelled
  as an association list with overwrite-on-assign semantics (`objSet`), which is how
  `{ ...where, key: value }` behaves.
* `Utils.uuid` lives in `../utils`, which is not part of the sources at hand; it is
  a parameter (`Utils.uuid`) that may fail.  The node returned by `Utils.ilike` is kept
  as an uninterpreted constructor `Cond.ilike` carrying its three arguments.
* The storage backend (`db.donations`, a model declared under `../models`) is modelled
  as a list of rows together with the log of writes issued against it.
* Transactions handles are passed through unchanged by the source and are not modelled.
-/

namespace HopeConnect

/-! ## JavaScript values -/

/-- The JavaScript values that reach the layer. -/
inductive JSVal where
  | undefined
  | null
  | bool (b : Bool)
  | num (n : Int)
  | str (s : String)
  deriving DecidableEq

namespace JSVal

/-- JavaScript truthiness (`ToBoolean`). -/
def truthy : JSVal → Bool
  | undefined => false
  | null => false
  | bool b => b
  | num n => n != 0
  | str s => s != ""

/-- The JavaScript expression `a || b`. -/
def orElse (a b : JSVal) : JSVal := if a.truthy then a else b

/-- The JavaScript expression `a && b`, as a condition. -/
def andAlso (a b : JSVal) : Bool := a.truthy && b.truthy

end JSVal

/-! ## Numbers -/

/-- The numbers that arithmetic produces: `NaN`, the two infinities, and the integers
(negative zero is not told apart from zero). -/
inductive Num where
  | nan
  | inf (negative : Bool)
  | int (z : Int)
  deriving DecidableEq

/-- The binary digits of `n`, counted by halving at most `fuel` times. -/
def bitsOf : Nat → Nat → Nat
  | 0, _ => 0
  | fuel + 1, n => if n = 0 then 0 else bitsOf fuel (n / 2) + 1

/-- The number of binary digits of `n`; `n` halvings always suffice. -/
def bitLength (n : Nat) : Nat := bitsOf n n

/-- The double nearest to the integer `z`: 53 significant bits are kept, the rest is
rounded to nearest with ties to even, and a magnitude of `2 ^ 1024` or more, one of
more than 1024 binary digits, is infinite. -/
def roundInt (z : Int) : Num :=
  let m := z.natAbs
  let e := bitLength m - 53
  let q := m / 2 ^ e
  let r := m % 2 ^ e
  let kept := if 2 * r > 2 ^ e ∨ (2 * r = 2 ^ e ∧ q % 2 = 1) then q + 1 else q
  let v := kept * 2 ^ e
  if 1024 < bitLength v then .inf (decide (z < 0))
  else if z < 0 then .int (-(v : Int)) else .int (v : Int)

namespace Num

/-- JavaScript truthiness of a number: `NaN` and zero are falsy. -/
def truthy : Num → Bool
  | nan => false
  | inf _ => true
  | int z => z != 0

/-- The JavaScript product `a * b`. -/
def mul : Num → Num → Num
  | nan, _ => nan
  | _, nan => nan
  | inf s, inf t => inf (s != t)
  | inf s, int z => if z = 0 then nan else inf (s != decide (z < 0))
  | int z, inf s => if z = 0 then nan else inf (s != decide (z < 0))
  | int a, int b => roundInt (a * b)

end Num

/-- What the language runtime supplies: the number a string coerces to. -/
structure Runtime where
  stringToNumber : String → Num

/-- JavaScript `ToNumber`, as applied by `+v`, `Number(v)` and `*`. -/
def toNumber (R : Runtime) : JSVal → Num
  | .undefined => .nan
  | .null => .int 0
  | .bool true => .int 1
  | .bool false => .int 0
  | .num n => roundInt n
  | .str s => R.stringToNumber s

/-- Error kinds surfaced by the layer. `typeError` is the runtime error raised by
JavaScript when a property of `null` is read or a non-function is called. -/
inductive DbError where
  | typeError
  | notFound
  | invalidIdentifier
  | validationFailure
  deriving DecidableEq

/-- The helpers of `../utils` used by the layer. `uuid` normalises an identifier and
may fail. -/
structure Utils where
  uuid : JSVal → Except DbError JSVal

/-! ## Predicate trees -/

/-- Keys that occur in a `where` object: column names and the operator symbols
`Op.and`, `Op.or`. -/
inductive WKey where
  | id
  | opAnd
  | opOr
  | quantity
  | active
  | userId
  | createdAt
  deriving DecidableEq

/-- Atomic conditions: `{ id: v }` and the node built by
`Utils.ilike(model, column, query)`. -/
inductive Cond where
  | idEq (v : JSVal)
  | ilike (model column : String) (query : JSVal)
  deriving DecidableEq

/-- A range object `{ [Op.gte]: a, [Op.lte]: b }`; either key may be missing. -/
structure Bounds where
  gte : Option JSVal
  lte : Option JSVal
  deriving DecidableEq

/-- Values stored under a key of a `where` object. -/
inductive WVal where
  | lit (v : JSVal)
  | cond (c : Cond)
  | range (b : Bounds)
  | opOrList (xs : List JSVal)
  | opInList (xs : List JSVal)
  | alts (cs : List Cond)
  deriving DecidableEq

/-- A `where` object: keys in insertion order, each key at most once. -/
abbrev Where := List (WKey × WVal)

/-- Property read `where[k]`. -/
def objGet : Where → WKey → Option WVal
  | [], _ => none
  | (k1, v1) :: rest, k => if k1 = k then some v1 else objGet rest k

/-- The object `{ ...where, [k]: v }`: an existing key keeps its place and takes the
new value, a new key goes last. -/
def objSet : Where → WKey → WVal → Where
  | [], k, v => [(k, v)]
  | (k1, v1) :: rest, k, v =>
    if k1 = k then (k, v) :: rest else (k1, v1) :: objSet rest k v

/-- The spread `...where[k]` inside a range object: the bounds already stored under
`k`, or nothing when the key is unset. -/
def spreadBounds (w : Where) (k : WKey) : Bounds :=
  match objGet w k with
  | some (.range b) => b
  | _ => { gte := none, lte := none }

/-- The lower bound stored under `k`, if any. -/
def lowerBound (w : Where) (k : WKey) : Option JSVal :=
  match objGet w k with
  | some (.range b) => b.gte
  | _ => none

/-- The upper bound stored under `k`, if any. -/
def upperBound (w : Where) (k : WKey) : Option JSVal :=
  match objGet w k with
  | some (.range b) => b.lte
  | _ => none

/-- Every atomic condition that occurs somewhere in a `where` object. -/
def conds : Where → List Cond
  | [] => []
  | (_, .cond c) :: rest => c :: conds rest
  | (_, .alts cs) :: rest => cs ++ conds rest
  | _ :: rest => conds rest

/-! ## Filters -/

/-- The `filter` argument of `findAll`. An absent field is `undefined` (or `none`). -/
structure Filter where
  id : JSVal := .undefined
  item : JSVal := .undefined
  location : JSVal := .undefined
  quantityRange : Option (List JSVal) := none
  active : JSVal := .undefined
  user : JSVal := .undefined
  createdAtRange : Option (List JSVal) := none
  limit : JSVal := .undefined
  page : JSVal := .undefined
  field : JSVal := .undefined
  sort : JSVal := .undefined

/-- The test `v !== undefined && v !== null && v !== ''`. -/
def present (v : JSVal) : Bool :=
  decide (v ≠ .undefined) && decide (v ≠ .null) && decide (v ≠ .str "")

/-- Array destructuring `const [start, end] = xs`. -/
def destructure (xs : List JSVal) : JSVal × JSVal :=
  (xs.getD 0 .undefined, xs.getD 1 .undefined)

/-- Lines 169-174: `if (filter.id)`. -/
def whereId (U : Utils) (f : Filter) (w : Where) : Except DbError Where :=
  if f.id.truthy then
    match U.uuid f.id with
    | .ok v => .ok (objSet w .id (.lit v))
    | .error e => .error e
  else .ok w

/-- Lines 176-181: `if (filter.item)`. -/
def whereItem (f : Filter) (w : Where) : Where :=
  if f.item.truthy then objSet w .opAnd (.cond (.ilike "donations" "item" f.item)) else w

/-- Lines 183-188: `if (filter.location)`. -/
def whereLocation (f : Filter) (w : Where) : Where :=
  if f.location.truthy then
    objSet w .opAnd (.cond (.ilike "donations" "location" f.location))
  else w

/-- The two guarded assignments shared by lines 193-211 and 240-258, for column `k`. -/
def whereRange (k : WKey) (xs : List JSVal) (w : Where) : Where :=
  let se := destructure xs
  let w1 :=
    if present se.1 then
      objSet w k (.range { spreadBounds w k with gte := some se.1 })
    else w
  if present se.2 then
    objSet w1 k (.range { spreadBounds w1 k with lte := some se.2 })
  else w1

/-- Lines 190-212: `if (filter.quantityRange)`. -/
def whereQuantity (f : Filter) (w : Where) : Where :=
  match f.quantityRange with
  | some xs => whereRange .quantity xs w
  | none => w

/-- Lines 214-224: the four-way strict comparison on `filter.active`. -/
def whereActive (f : Filter) (w : Where) : Where :=
  if f.active = .bool true ∨ f.active = .str "true" ∨
      f.active = .bool false ∨ f.active = .str "false" then
    objSet w .active
      (.lit (.bool (decide (f.active = .bool true ∨ f.active = .str "true"))))
  else w

/-- The method call `s.split('|')` on characters. -/
def splitBar : List Char → List (List Char)
  | [] => [[]]
  | c :: cs =>
    if c = '|' then [] :: splitBar cs
    else
      match splitBar cs with
      | [] => [[c]]
      | p :: ps => (c :: p) :: ps

/-- The effect of `xs.map(f)` when `f` may throw: the first failure aborts. -/
def mapExcept {α β : Type} (g : α → Except DbError β) : List α → Except DbError (List β)
  | [] => .ok []
  | a :: rest =>
    match g a with
    | .error e => .error e
    | .ok b =>
      match mapExcept g rest with
      | .error e => .error e
      | .ok bs => .ok (b :: bs)

/-- Lines 226-235: `if (filter.user)`. Calling `.split` on a truthy value that is not
a string is a `TypeError`. -/
def whereUser (U : Utils) (f : Filter) (w : Where) : Except DbError Where :=
  if f.user.truthy then
    match f.user with
    | .str s =>
      match mapExcept (fun cs => U.uuid (.str (String.mk cs))) (splitBar s.toList) with
      | .ok listItems => .ok (objSet w .userId (.opOrList listItems))
      | .error e => .error e
    | _ => .error .typeError
  else .ok w

/-- Lines 237-259: `if (filter.createdAtRange)`. -/
def whereCreatedAt (f : Filter) (w : Where) : Where :=
  match f.createdAtRange with
  | some xs => whereRange .createdAt xs w
  | none => w

/-- Lines 160-260 of `findAll`: the `where` object compiled from a filter. -/
def compileWhere (U : Utils) (f : Filter) : Except DbError Where :=
  match whereId U f [] with
  | .error e => .error e
  | .ok w1 =>
    match whereUser U f (whereActive f (whereQuantity f (whereLocation f (whereItem f w1)))) with
    | .error e => .error e
    | .ok w2 => .ok (whereCreatedAt f w2)

/-! ## Rows, and the storage backend

The model declared under `../models` and the library behind it are not part of the
sources at hand. The definitions of this section model the primitives the layer
consumes, after section 6 of the specification: create, read, update and delete over
the donation table, a count, and a query primitive with ordering and pagination. -/

/-- The persisted shape of a donation row. -/
structure Row where
  id : JSVal
  item : JSVal
  quantity : JSVal
  location : JSVal
  importHash : JSVal
  active : JSVal
  userId : JSVal
  createdById : JSVal
  updatedById : JSVal
  deletedBy : JSVal
  createdAt : JSVal
  updatedAt : JSVal
  deriving DecidableEq

/-- The attribute object handed to `db.donations.create` and, in a list, to
`db.donations.bulkCreate`. A key the source leaves out is `undefined`. -/
structure Attrs where
  id : JSVal
  item : JSVal
  quantity : JSVal
  location : JSVal
  importHash : JSVal
  createdById : JSVal
  updatedById : JSVal
  createdAt : JSVal
  deriving DecidableEq

/-- The object handed to `record.update`; `none` is a key the source leaves out. -/
structure Patch where
  item : Option JSVal := none
  quantity : Option JSVal := none
  location : Option JSVal := none
  updatedById : Option JSVal := none
  deletedBy : Option JSVal := none
  deriving DecidableEq

/-- The writes the layer issues against the backend, with their arguments. -/
inductive Write where
  | create (a : Attrs)
  | bulkCreate (batch : List Attrs)
  | update (id : JSVal) (p : Patch)
  | setUser (id : JSVal) (user : JSVal)
  | destroy (id : JSVal)
  deriving DecidableEq

/-- The store: the rows of the donation table, in insertion order, and the writes
issued so far. -/
structure Db where
  rows : List Row
  log : List Write
  deriving DecidableEq

/-- What the backend supplies on its own: the identifier it generates for a row
created without one, and its clock reading for the automatic timestamps. -/
structure Env where
  genId : List Row → JSVal
  now : Int

/-- The options object of `findAll`, `count` and `findAndCountAll`. `orderBy` is a
key the query primitive does not know. -/
structure FindOptions where
  whereClause : Where := []
  attributes : Option (List String) := none
  includeUser : Bool := false
  distinct : Bool := false
  limit : Option Num := none
  offset : Option Num := none
  order : Option (List (JSVal × JSVal)) := none
  orderBy : Option (List (JSVal × JSVal)) := none
  deriving DecidableEq

/-- The string a value turns into inside a template literal. -/
def JSVal.toStr : JSVal → String
  | .undefined => "undefined"
  | .null => "null"
  | .bool true => "true"
  | .bool false => "false"
  | .num n => toString n
  | .str s => s

/-- Whether `needle` starts `hay`. -/
def startsWithChars : List Char → List Char → Bool
  | [], _ => true
  | _ :: _, [] => false
  | a :: as, b :: bs => a == b && startsWithChars as bs

/-- Whether `needle` occurs in `hay` as a contiguous run. -/
def containsChars (needle : List Char) : List Char → Bool
  | [] => needle.isEmpty
  | b :: bs => startsWithChars needle (b :: bs) || containsChars needle bs

/-- Modelled from the spec: the condition built by `Utils.ilike` (in `../utils`, not
among the sources) is a case-insensitive substring match of the query in the column. -/
def containsCI (query column : String) : Bool :=
  containsChars (query.toList.map Char.toLower) (column.toList.map Char.toLower)

/-- Modelled from the spec: a column of the donation table, by name. -/
def columnByName (name : String) (r : Row) : JSVal :=
  if name = "id" then r.id
  else if name = "item" then r.item
  else if name = "quantity" then r.quantity
  else if name = "location" then r.location
  else if name = "importHash" then r.importHash
  else if name = "active" then r.active
  else if name = "userId" then r.userId
  else if name = "createdById" then r.createdById
  else if name = "updatedById" then r.updatedById
  else if name = "deletedBy" then r.deletedBy
  else if name = "createdAt" then r.createdAt
  else if name = "updatedAt" then r.updatedAt
  else .undefined

/-- Modelled from the spec: when a row satisfies an atomic condition. -/
def evalCond (r : Row) : Cond → Bool
  | .idEq v => decide (r.id = v)
  | .ilike _ column query =>
    match columnByName column r with
    | .str s => containsCI query.toStr s
    | _ => false

/-- Modelled from the spec: `v >= lo` on stored numbers; a null column satisfies no
comparison. -/
def jsGe : JSVal → JSVal → Bool
  | .num a, .num b => decide (b ≤ a)
  | _, _ => false

/-- Modelled from the spec: inclusive bounds, each optional. -/
def inBounds (b : Bounds) (v : JSVal) : Bool :=
  (match b.gte with
    | none => true
    | some lo => jsGe v lo) &&
  (match b.lte with
    | none => true
    | some hi => jsGe hi v)

/-- The column a key of a `where` object names, if it names one. -/
def keyColumn : WKey → Option (Row → JSVal)
  | .id => some Row.id
  | .quantity => some Row.quantity
  | .active => some Row.active
  | .userId => some Row.userId
  | .createdAt => some Row.createdAt
  | .opAnd => none
  | .opOr => none

/-- Modelled from the spec: when a row satisfies one entry of a `where` object. -/
def evalEntry (r : Row) (e : WKey × WVal) : Bool :=
  match keyColumn e.1 with
  | some col =>
    match e.2 with
    | .lit v => decide (col r = v)
    | .range b => inBounds b (col r)
    | .opOrList xs => decide (col r ∈ xs)
    | .opInList xs => decide (col r ∈ xs)
    | .cond _ => false
    | .alts _ => false
  | none =>
    match e.2 with
    | .cond c => evalCond r c
    | .alts cs => if e.1 = .opOr then cs.any (evalCond r) else cs.all (evalCond r)
    | _ => false

/-- Modelled from the spec: the entries of a `where` object are combined with AND. -/
def matchesWhere (w : Where) (r : Row) : Bool := w.all (evalEntry r)

/-- Lexicographic order on characters by code point. -/
def charsLe : List Char → List Char → Bool
  | [], _ => true
  | _ :: _, [] => false
  | a :: as, b :: bs =>
    if a.toNat < b.toNat then true
    else if b.toNat < a.toNat then false
    else charsLe as bs

/-- Modelled from the spec: an order on stored values, nulls last. -/
def jsLe : JSVal → JSVal → Bool
  | .num a, .num b => decide (a ≤ b)
  | .str a, .str b => charsLe a.toList b.toList
  | _, .null => true
  | .null, _ => false
  | _, _ => true

/-- Modelled from the spec: the comparison one `[field, direction]` pair stands for. -/
def orderLe (o : JSVal × JSVal) (a b : Row) : Bool :=
  if o.2.toStr.toList.map Char.toLower = "desc".toList then
    jsLe (columnByName o.1.toStr b) (columnByName o.1.toStr a)
  else jsLe (columnByName o.1.toStr a) (columnByName o.1.toStr b)

/-- Insertion into a sorted list, before the first row not below the new one. -/
def insertBy (le : Row → Row → Bool) (r : Row) : List Row → List Row
  | [] => [r]
  | x :: xs => if le r x then r :: x :: xs else x :: insertBy le r xs

/-- Stable insertion sort. -/
def sortBy (le : Row → Row → Bool) (rows : List Row) : List Row :=
  rows.foldr (insertBy le) []

/-- Modelled from the spec: the `order` option; later pairs break ties of earlier
ones. Without the option the rows stay in table order. -/
def applyOrder (order : Option (List (JSVal × JSVal))) (rows : List Row) : List Row :=
  match order with
  | none => rows
  | some os => os.foldr (fun o acc => sortBy (orderLe o) acc) rows

/-- Modelled from the spec: the number of rows a bound stands for. The spec describes
bounds that are natural numbers only; any other bound is read as zero rows. -/
def rowCount : Num → Nat
  | .int z => z.toNat
  | _ => 0

/-- Modelled from the spec: the `offset` and `limit` options; without `limit` the
result is unbounded. -/
def applyPage (offset limit : Option Num) (rows : List Row) : List Row :=
  let dropped :=
    match offset with
    | none => rows
    | some o => rows.drop (rowCount o)
  match limit with
  | none => dropped
  | some n => dropped.take (rowCount n)

/-- Modelled from the spec: the `attributes` option; a column not selected is
`undefined` on the returned instance. -/
def projectRow (attributes : Option (List String)) (r : Row) : Row :=
  match attributes with
  | none => r
  | some names =>
    let pick := fun (name : String) (v : JSVal) => if name ∈ names then v else JSVal.undefined
    { id := pick "id" r.id
      item := pick "item" r.item
      quantity := pick "quantity" r.quantity
      location := pick "location" r.location
      importHash := pick "importHash" r.importHash
      active := pick "active" r.active
      userId := pick "userId" r.userId
      createdById := pick "createdById" r.createdById
      updatedById := pick "updatedById" r.updatedById
      deletedBy := pick "deletedBy" r.deletedBy
      createdAt := pick "createdAt" r.createdAt
      updatedAt := pick "updatedAt" r.updatedAt }

/-- Modelled from the spec: the query primitive `db.donations.findAll(options)`. It
reads `where`, `order`, `offset`, `limit` and `attributes`. -/
def dbFindAll (db : Db) (q : FindOptions) : List Row :=
  (applyPage q.offset q.limit
    (applyOrder q.order (db.rows.filter (matchesWhere q.whereClause)))).map
    (projectRow q.attributes)

/-- Modelled from the spec: the count primitive `db.donations.count(options)`, the
number of rows the predicate matches. -/
def dbCount (db : Db) (q : FindOptions) : Nat :=
  (db.rows.filter (matchesWhere q.whereClause)).length

/-- Modelled from the spec: `db.donations.findAndCountAll(options)`, the page of rows
and the size of the full filtered set. -/
def dbFindAndCountAll (db : Db) (q : FindOptions) : List Row × Nat :=
  (dbFindAll db q, dbCount db q)

/-- Modelled from the spec: `db.donations.findOne({ where })`, at most one matching
row. -/
def dbFindOne (db : Db) (w : Where) : Option Row :=
  db.rows.find? (matchesWhere w)

/-- Modelled from the spec: `db.donations.findByPk(id)`, the row with that identifier,
or `null`. -/
def findByPk (db : Db) (id : JSVal) : Option Row :=
  db.rows.find? (fun r => decide (r.id = id))

/-- Modelled from the spec: the row an insert builds. The identifier is the one
supplied or a generated one; identifiers are unique, and so are non-null import
hashes; optional columns not supplied are null. -/
def dbInsert (E : Env) (rows : List Row) (a : Attrs) : Except DbError Row :=
  let id := if a.id = .undefined then E.genId rows else a.id
  if rows.any (fun r => decide (r.id = id)) then .error .validationFailure
  else if a.importHash ≠ .null ∧ rows.any (fun r => decide (r.importHash = a.importHash)) then
    .error .validationFailure
  else
    .ok
      { id := id
        item := a.item
        quantity := a.quantity
        location := a.location
        importHash := a.importHash
        active := .null
        userId := .null
        createdById := a.createdById
        updatedById := a.updatedById
        deletedBy := .null
        createdAt := if a.createdAt = .undefined then .num E.now else a.createdAt
        updatedAt := .num E.now }

/-- Modelled from the spec: `db.donations.create(attrs)`. A rejected insert writes
nothing. -/
def dbCreate (E : Env) (db : Db) (a : Attrs) : Except DbError Row × Db :=
  match dbInsert E db.rows a with
  | .error e => (.error e, db)
  | .ok r => (.ok r, { rows := db.rows ++ [r], log := db.log ++ [.create a] })

/-- The rows a batch inserts, one after the other; the first rejection rejects the
batch. -/
def insertBatch (E : Env) : List Row → List Attrs → Except DbError (List Row)
  | _, [] => .ok []
  | rows, a :: rest =>
    match dbInsert E rows a with
    | .error e => .error e
    | .ok r =>
      match insertBatch E (rows ++ [r]) rest with
      | .error e => .error e
      | .ok rs => .ok (r :: rs)

/-- Modelled from the spec: `db.donations.bulkCreate(batch)`, a single batched insert,
all or nothing. -/
def dbBulkCreate (E : Env) (db : Db) (batch : List Attrs) : Except DbError (List Row) × Db :=
  match insertBatch E db.rows batch with
  | .error e => (.error e, db)
  | .ok rs => (.ok rs, { rows := db.rows ++ rs, log := db.log ++ [.bulkCreate batch] })

/-- The row after the keys of a patch are assigned. -/
def applyPatch (E : Env) (p : Patch) (r : Row) : Row :=
  { r with
    item := p.item.getD r.item
    quantity := p.quantity.getD r.quantity
    location := p.location.getD r.location
    updatedById := p.updatedById.getD r.updatedById
    deletedBy := p.deletedBy.getD r.deletedBy
    updatedAt := .num E.now }

/-- Modelled from the spec: `record.update(patch)`. The instance and the stored row
with its identifier take the patch. -/
def rowUpdate (E : Env) (db : Db) (record : Row) (p : Patch) : Row × Db :=
  (applyPatch E p record,
    { rows := db.rows.map (fun r => if r.id = record.id then applyPatch E p r else r)
      log := db.log ++ [.update record.id p] })

/-- Modelled from the spec: `record.setUser(user)`, the association assignment; `null`
clears the association. -/
def setUser (db : Db) (record : Row) (user : JSVal) : Row × Db :=
  ({ record with userId := user },
    { rows := db.rows.map (fun r => if r.id = record.id then { r with userId := user } else r)
      log := db.log ++ [.setUser record.id user] })

/-- Modelled from the spec: `record.getUser()`, the associated principal, named by its
identifier, or `null`. -/
def getUser (db : Db) (record : Row) : JSVal :=
  match findByPk db record.id with
  | some r => r.userId
  | none => .null

/-- Modelled from the spec: `record.destroy()`, the hard removal of the row. -/
def rowDestroy (db : Db) (record : Row) : Db :=
  { rows := db.rows.filter (fun r => decide (r.id ≠ record.id))
    log := db.log ++ [.destroy record.id] }

/-! ## The operations of `DonationsDBApi` -/

/-- The principal acting on a call. -/
structure User where
  id : JSVal
  deriving DecidableEq

/-- The `options` bag of an operation. -/
structure Options where
  currentUser : Option User := none
  countOnly : Bool := false
  deriving DecidableEq

/-- The `data` object of `create` and `update`, and an item of `bulkImport`. -/
structure Data where
  id : JSVal := .undefined
  item : JSVal := .undefined
  quantity : JSVal := .undefined
  location : JSVal := .undefined
  importHash : JSVal := .undefined
  user : JSVal := .undefined
  deriving DecidableEq

/-- The identifier of `(options && options.currentUser) || { id: null }`. -/
def currentUserId (options : Option Options) : JSVal :=
  match options with
  | none => .null
  | some o =>
    match o.currentUser with
    | none => .null
    | some u => u.id

/-- Lines 15-24: the attribute object `create` builds. -/
def createAttrs (data : Data) (actor : JSVal) : Attrs :=
  { id := data.id.orElse .undefined
    item := data.item.orElse .null
    quantity := data.quantity.orElse .null
    location := data.location.orElse .null
    importHash := data.importHash.orElse .null
    createdById := actor
    updatedById := actor
    createdAt := .undefined }

/-- Lines 10-33: `create(data, options)`. -/
def create (E : Env) (db : Db) (data : Data) (options : Option Options) :
    Except DbError Row × Db :=
  let actor := currentUserId options
  match dbCreate E db (createAttrs data actor) with
  | (.error e, db1) => (.error e, db1)
  | (.ok donations, db1) =>
    let r := setUser db1 donations (data.user.orElse .null)
    (.ok r.1, r.2)

/-- Lines 40-50: the callback of `data.map`; `now` is the reading of `Date.now()`
taken inside this call, in milliseconds. -/
def bulkRow (actor : JSVal) (now : Int) (item : Data) (index : Nat) : Attrs :=
  { id := item.id.orElse .undefined
    item := item.item.orElse .null
    quantity := item.quantity.orElse .null
    location := item.location.orElse .null
    importHash := item.importHash.orElse .null
    createdById := actor
    updatedById := actor
    createdAt := .num (now + index * 1000) }

/-- The loop of `data.map((item, index) => ...)`, from index `i` on; `clock k` is the
reading of `Date.now()` in the call for index `k`. -/
def bulkRowsFrom (actor : JSVal) (clock : Nat → Int) : Nat → List Data → List Attrs
  | _, [] => []
  | i, item :: rest => bulkRow actor (clock i) item i :: bulkRowsFrom actor clock (i + 1) rest

/-- Line 40: `donationsData`. -/
def donationsData (actor : JSVal) (clock : Nat → Int) (data : List Data) : List Attrs :=
  bulkRowsFrom actor clock 0 data

/-- Lines 35-60: `bulkImport(data, options)`. -/
def bulkImport (E : Env) (clock : Nat → Int) (db : Db) (data : List Data)
    (options : Option Options) : Except DbError (List Row) × Db :=
  dbBulkCreate E db (donationsData (currentUserId options) clock data)

/-- Lines 69-74: the object `update` hands to `record.update`. -/
def updatePatch (data : Data) (actor : JSVal) : Patch :=
  { item := some (data.item.orElse .null)
    quantity := some (data.quantity.orElse .null)
    location := some (data.location.orElse .null)
    updatedById := some actor }

/-- Lines 62-83: `update(id, data, options)`. A `null` from `findByPk` makes the
call `donations.update` a `TypeError`. -/
def update (E : Env) (db : Db) (id : JSVal) (data : Data) (options : Option Options) :
    Except DbError Row × Db :=
  let actor := currentUserId options
  match findByPk db id with
  | none => (.error .typeError, db)
  | some donations =>
    let r1 := rowUpdate E db donations (updatePatch data actor)
    let r2 := setUser r1.2 r1.1 (data.user.orElse .null)
    (.ok r2.1, r2.2)

/-- Lines 99-101: the first loop of `deleteByIds`. The instances are updated in
place. -/
def markAll (E : Env) (actor : JSVal) : List Row → Db → List Row × Db
  | [], db => ([], db)
  | record :: rest, db =>
    let u := rowUpdate E db record { deletedBy := some actor }
    let t := markAll E actor rest u.2
    (u.1 :: t.1, t.2)

/-- Lines 102-104: the second loop of `deleteByIds`. -/
def destroyAll : List Row → Db → Db
  | [], db => db
  | record :: rest, db => destroyAll rest (rowDestroy db record)

/-- Lines 89-96: the records `deleteByIds` loads. -/
def loadByIds (db : Db) (ids : List JSVal) : List Row :=
  dbFindAll db { whereClause := [(.id, .opInList ids)] }

/-- Lines 85-108: `deleteByIds(ids, options)`. -/
def deleteByIds (E : Env) (db : Db) (ids : List JSVal) (options : Option Options) :
    List Row × Db :=
  let actor := currentUserId options
  let donations := loadByIds db ids
  let m := markAll E actor donations db
  (m.1, destroyAll m.1 m.2)

/-- Lines 110-130: `remove(id, options)`. A `null` from `findByPk` makes the call
`donations.update` a `TypeError`. -/
def remove (E : Env) (db : Db) (id : JSVal) (options : Option Options) :
    Except DbError Row × Db :=
  let actor := currentUserId options
  match findByPk db id with
  | none => (.error .typeError, db)
  | some donations =>
    let u := rowUpdate E db donations { deletedBy := some actor }
    (.ok u.1, rowDestroy u.2 u.1)

/-- The plain object `findBy` returns: the row and its `user`. -/
structure Output where
  row : Row
  user : JSVal
  deriving DecidableEq

/-- Lines 132-148: `findBy(where, options)`; `none` is the `null` of no match. -/
def findBy (db : Db) (w : Where) : Option Output :=
  match dbFindOne db w with
  | none => none
  | some donations => some { row := donations, user := getUser db donations }

/-- Line 151: `filter.limit || 0`. -/
def pageLimit (f : Filter) : JSVal := f.limit.orElse (.num 0)

/-- Lines 153-155: `currentPage * limit` with `currentPage = +filter.page`; both
operands are coerced to numbers and the product is a double. -/
def pageOffset (R : Runtime) (f : Filter) : Num :=
  (toNumber R f.page).mul (toNumber R (pageLimit f))

/-- The expression `limit ? Number(limit) : undefined`. -/
def limitOption (R : Runtime) (limit : JSVal) : Option Num :=
  if limit.truthy then some (toNumber R limit) else none

/-- The expression `offset ? Number(offset) : undefined` on the number `offset`; `NaN`
and `0` are falsy. -/
def offsetOption (offset : Num) : Option Num :=
  if offset.truthy then some offset else none

/-- The expression
`filter.field && filter.sort ? [[filter.field, filter.sort]] : [['createdAt', 'desc']]`. -/
def orderOption (f : Filter) : List (JSVal × JSVal) :=
  if f.field.andAlso f.sort then [(f.field, f.sort)] else [(.str "createdAt", .str "desc")]

/-- Lines 265-276: the options of the `count` call. -/
def countOptions (R : Runtime) (f : Filter) (w : Where) : FindOptions :=
  { whereClause := w
    includeUser := true
    distinct := true
    limit := limitOption R (pageLimit f)
    offset := offsetOption (pageOffset R f)
    order := some (orderOption f) }

/-- Lines 278-289: the options of the `findAndCountAll` call. -/
def pageOptions (R : Runtime) (f : Filter) (w : Where) : FindOptions :=
  { whereClause := w
    includeUser := true
    distinct := true
    limit := limitOption R (pageLimit f)
    offset := offsetOption (pageOffset R f)
    order := some (orderOption f) }

/-- The object `{ rows, count }` returned by `findAll`. -/
structure Page where
  rows : List Row
  count : Nat
  deriving DecidableEq

/-- The test `options?.countOnly`. -/
def countOnly (options : Option Options) : Bool :=
  match options with
  | none => false
  | some o => o.countOnly

/-- Lines 150-297: `findAll(filter, options)`. -/
def findAll (R : Runtime) (U : Utils) (db : Db) (f : Filter) (options : Option Options) :
    Except DbError Page :=
  match compileWhere U f with
  | .error e => .error e
  | .ok w =>
    if countOnly options then
      .ok { rows := [], count := dbCount db (countOptions R f w) }
    else
      let r := dbFindAndCountAll db (pageOptions R f w)
      .ok { rows := r.1, count := r.2 }

/-- An entry of the list `findAllAutocomplete` returns. -/
structure Suggestion where
  id : JSVal
  label : JSVal
  deriving DecidableEq

/-- Lines 300-309: the `where` object of `findAllAutocomplete`. -/
def autocompleteWhere (U : Utils) (query : JSVal) : Except DbError Where :=
  if query.truthy then
    match U.uuid query with
    | .error e => .error e
    | .ok v => .ok [(.opOr, .alts [.idEq v, .ilike "donations" "item" query])]
  else .ok []

/-- Lines 311-316: the options of the query; the ordering is passed under the key
`orderBy`. -/
def autocompleteOptions (R : Runtime) (w : Where) (limit : JSVal) : FindOptions :=
  { attributes := some ["id", "item"]
    whereClause := w
    limit := limitOption R limit
    orderBy := some [(.str "item", .str "ASC")] }

/-- Lines 299-322: `findAllAutocomplete(query, limit)`; an absent `limit` is
`undefined`. -/
def findAllAutocomplete (R : Runtime) (U : Utils) (db : Db) (query : JSVal) (limit : JSVal) :
    Except DbError (List Suggestion) :=
  match autocompleteWhere U query with
  | .error e => .error e
  | .ok w =>
    .ok ((dbFindAll db (autocompleteOptions R w limit)).map
      (fun record => { id := record.id, label := record.item }))

/-! ## Sample data -/

/-- A donation of bread in Delhi. -/
def breadInDelhi : Row :=
  { id := .str "d1"
    item := .str "bread"
    quantity := .num 1
    location := .str "Delhi"
    importHash := .null
    active := .null
    userId := .null
    createdById := .null
    updatedById := .null
    deletedBy := .null
    createdAt := .num 0
    updatedAt := .num 0 }

/-- A helper module whose `uuid` accepts every identifier unchanged. -/
def plainUtils : Utils := { uuid := fun v => .ok v }

/-- A backend that names the row it creates after the size of the table and whose
clock reads 0. -/
def sampleEnv : Env := { genId := fun rows => .num (rows.length + 1), now := 0 }

/-- The empty store. -/
def emptyDb : Db := { rows := [], log := [] }

/-- A store holding the donation of bread. -/
def breadDb : Db := { rows := [breadInDelhi], log := [] }

/-- A donation of rice, as created by `sampleEnv` in the empty store without an
acting user. -/
def riceRow : Row :=
  { id := .num 1
    item := .str "rice"
    quantity := .num 10
    location := .null
    importHash := .null
    active := .null
    userId := .null
    createdById := .null
    updatedById := .null
    deletedBy := .null
    createdAt := .num 0
    updatedAt := .num 0 }

/-- A store holding a donation of rim and, after it, one of rice. -/
def rimRiceDb : Db :=
  { rows := [{ riceRow with id := .num 2, item := .str "rim" }, riceRow], log := [] }

/-- A store holding donations of rice, rim and bread, in that order. -/
def pantryDb : Db :=
  { rows :=
      [riceRow, { riceRow with id := .num 2, item := .str "rim" },
        { riceRow with id := .num 3, item := .str "bread" }]
    log := [] }

/-- The value of a string of decimal digits, or `none` when another character
occurs. -/
def digitsValue : List Char → Nat → Option Nat
  | [], acc => some acc
  | c :: cs, acc =>
    if 48 ≤ c.toNat ∧ c.toNat ≤ 57 then digitsValue cs (10 * acc + (c.toNat - 48))
    else none

/-- A runtime for the examples: its string coercion reads a string of decimal digits
as the number it writes and the empty string as 0, as JavaScript does, and every
other string as `NaN`; the examples coerce no other string. -/
def digitRuntime : Runtime :=
  { stringToNumber := fun s =>
      match digitsValue s.toList 0 with
      | some n => roundInt n
      | none => .nan }

/-- The matching rule of section 4.5 of the specification, for a query normalised to
`v`: the identifier equals `v`, or the `item` contains the query without regard to
case. -/
def specSuggests (v query : JSVal) (r : Row) : Bool :=
  decide (r.id = v) ||
    (match r.item with
      | .str t => containsCI query.toStr t
      | _ => false)

/-! # Theorems -/

/-! ## Objects -/

theorem objGet_objSet_same (w : Where) (k : WKey) (v : WVal) :
    objGet (objSet w k v) k = some v := by
  induction w with
  | nil => simp [objSet, objGet]
  | cons p rest ih =>
    obtain ⟨k1, v1⟩ := p
    by_cases h : k1 = k
    · simp [objSet, objGet, h]
    · simp [objSet, objGet, h, ih]

theorem objGet_objSet_other (w : Where) (k j : WKey) (v : WVal) (h : k ≠ j) :
    objGet (objSet w k v) j = objGet w j := by
  induction w with
  | nil => simp [objSet, objGet, h]
  | cons p rest ih =>
    obtain ⟨k1, v1⟩ := p
    by_cases h1 : k1 = k
    · subst h1
      simp [objSet, objGet, h]
    · by_cases h2 : k1 = j
      · subst h2
        simp [objSet, objGet, h1]
      · simp [objSet, objGet, h1, h2, ih]

/-! ## The steps of the filter compiler, key by key -/

theorem whereId_other (U : Utils) (f : Filter) (w w1 : Where) (j : WKey)
    (h : whereId U f w = .ok w1) (hj : j ≠ .id) : objGet w1 j = objGet w j := by
  unfold whereId at h
  split at h
  · split at h
    · injection h with h
      subst h
      exact objGet_objSet_other w .id j _ (Ne.symm hj)
    · cases h
  · injection h with h
    subst h
    rfl

theorem whereItem_other (f : Filter) (w : Where) (j : WKey) (hj : j ≠ .opAnd) :
    objGet (whereItem f w) j = objGet w j := by
  unfold whereItem
  split
  · exact objGet_objSet_other w .opAnd j _ (Ne.symm hj)
  · rfl

theorem whereLocation_other (f : Filter) (w : Where) (j : WKey) (hj : j ≠ .opAnd) :
    objGet (whereLocation f w) j = objGet w j := by
  unfold whereLocation
  split
  · exact objGet_objSet_other w .opAnd j _ (Ne.symm hj)
  · rfl

theorem whereActive_other (f : Filter) (w : Where) (j : WKey) (hj : j ≠ .active) :
    objGet (whereActive f w) j = objGet w j := by
  unfold whereActive
  split
  · exact objGet_objSet_other w .active j _ (Ne.symm hj)
  · rfl

theorem whereUser_other (U : Utils) (f : Filter) (w w1 : Where) (j : WKey)
    (h : whereUser U f w = .ok w1) (hj : j ≠ .userId) : objGet w1 j = objGet w j := by
  unfold whereUser at h
  split at h
  · split at h
    · split at h
      · injection h with h
        subst h
        exact objGet_objSet_other w .userId j _ (Ne.symm hj)
      · cases h
    · cases h
  · injection h with h
    subst h
    rfl

theorem whereRange_other (k j : WKey) (xs : List JSVal) (w : Where) (hj : j ≠ k) :
    objGet (whereRange k xs w) j = objGet w j := by
  unfold whereRange
  by_cases h1 : present (destructure xs).1 = true <;>
    by_cases h2 : present (destructure xs).2 = true <;>
    simp [h1, h2, objGet_objSet_other _ k j _ (Ne.symm hj)]

theorem whereRange_lower (k : WKey) (s e : JSVal) (w : Where) :
    lowerBound (whereRange k [s, e] w) k = if present s then some s else lowerBound w k := by
  unfold whereRange lowerBound
  simp only [destructure, List.getD_cons_zero, List.getD_cons_succ]
  by_cases hs : present s = true <;> by_cases he : present e = true <;>
    simp [hs, he, objGet_objSet_same, spreadBounds]
  all_goals
    rcases objGet w k with _ | v
    · simp
    · cases v <;> simp

theorem whereRange_upper (k : WKey) (s e : JSVal) (w : Where) :
    upperBound (whereRange k [s, e] w) k = if present e then some e else upperBound w k := by
  unfold whereRange upperBound
  simp only [destructure, List.getD_cons_zero, List.getD_cons_succ]
  by_cases hs : present s = true <;> by_cases he : present e = true <;>
    simp [hs, he, objGet_objSet_same, spreadBounds]
  all_goals
    rcases objGet w k with _ | v
    · simp
    · cases v <;> simp

theorem whereQuantity_other (f : Filter) (w : Where) (j : WKey) (hj : j ≠ .quantity) :
    objGet (whereQuantity f w) j = objGet w j := by
  unfold whereQuantity
  split
  · exact whereRange_other .quantity j _ w hj
  · rfl

theorem whereCreatedAt_other (f : Filter) (w : Where) (j : WKey) (hj : j ≠ .createdAt) :
    objGet (whereCreatedAt f w) j = objGet w j := by
  unfold whereCreatedAt
  split
  · exact whereRange_other .createdAt j _ w hj
  · rfl

theorem present_iff (v : JSVal) :
    present v = true ↔ v ≠ .undefined ∧ v ≠ .null ∧ v ≠ .str "" := by
  simp [present, and_assoc]

theorem lowerBound_congr (w v : Where) (k : WKey) (h : objGet w k = objGet v k) :
    lowerBound w k = lowerBound v k := by
  unfold lowerBound
  rw [h]

theorem upperBound_congr (w v : Where) (k : WKey) (h : objGet w k = objGet v k) :
    upperBound w k = upperBound v k := by
  unfold upperBound
  rw [h]

/-- A successful compilation went through every step. -/
theorem compileWhere_steps (U : Utils) (f : Filter) (w : Where)
    (h : compileWhere U f = .ok w) :
    ∃ w1 w2, whereId U f [] = .ok w1 ∧
      whereUser U f (whereActive f (whereQuantity f (whereLocation f (whereItem f w1))))
        = .ok w2 ∧
      w = whereCreatedAt f w2 := by
  unfold compileWhere at h
  split at h
  · cases h
  · rename_i w1 h1
    split at h
    · cases h
    · rename_i w2 h2
      injection h with h
      exact ⟨w1, w2, h1, h2, h.symm⟩

/-- The compilation fails only inside `Utils.uuid` or on a `user` that is not a
string: without `id` and `user` it succeeds. -/
theorem compileWhere_total (U : Utils) (f : Filter)
    (hid : f.id.truthy = false) (hu : f.user.truthy = false) :
    ∃ w, compileWhere U f = .ok w := by
  simp [compileWhere, whereId, whereUser, hid, hu]

/-- What a successful compilation leaves under the key `quantity`. -/
theorem compileWhere_quantity (U : Utils) (f : Filter) (w : Where)
    (h : compileWhere U f = .ok w) :
    objGet w .quantity = objGet (whereQuantity f []) .quantity := by
  obtain ⟨w1, w2, h1, h2, rfl⟩ := compileWhere_steps U f w h
  rw [whereCreatedAt_other f w2 .quantity (by decide),
    whereUser_other U f _ w2 .quantity h2 (by decide),
    whereActive_other f _ .quantity (by decide)]
  have hbase : objGet (whereLocation f (whereItem f w1)) .quantity = none := by
    rw [whereLocation_other f _ .quantity (by decide), whereItem_other f _ .quantity (by decide),
      whereId_other U f [] w1 .quantity h1 (by decide)]
    rfl
  unfold whereQuantity
  split
  · rename_i xs _
    unfold whereRange
    by_cases c1 : present (destructure xs).1 = true <;>
      by_cases c2 : present (destructure xs).2 = true <;>
      simp [c1, c2, objGet_objSet_same, spreadBounds, hbase, objGet]
  · rw [hbase]
    rfl

/-- What a successful compilation leaves under the key `active`. -/
theorem compileWhere_active (U : Utils) (f : Filter) (w : Where)
    (h : compileWhere U f = .ok w) :
    objGet w .active = objGet (whereActive f []) .active := by
  obtain ⟨w1, w2, h1, h2, rfl⟩ := compileWhere_steps U f w h
  rw [whereCreatedAt_other f w2 .active (by decide),
    whereUser_other U f _ w2 .active h2 (by decide)]
  have hbase : objGet (whereQuantity f (whereLocation f (whereItem f w1))) .active = none := by
    rw [whereQuantity_other f _ .active (by decide),
      whereLocation_other f _ .active (by decide), whereItem_other f _ .active (by decide),
      whereId_other U f [] w1 .active h1 (by decide)]
    rfl
  unfold whereActive
  split
  · rw [objGet_objSet_same, objGet_objSet_same]
  · rw [hbase]
    rfl

/-- Claim C2. For every filter whose `quantityRange` is the pair `[start, stop]`, the
`where` object `findAll` compiles carries the inclusive lower bound `>= start` on
`quantity` exactly when `start` is none of `undefined`, `null` and the empty string,
and the inclusive upper bound `<= stop` exactly when `stop` is none of them; the two
are decided independently and both are kept when both are present. -/
theorem findAll_quantityRange_bounds (U : Utils) (f : Filter) (start stop : JSVal)
    (w : Where) (hq : f.quantityRange = some [start, stop])
    (hw : compileWhere U f = .ok w) :
    lowerBound w .quantity =
        (if start ≠ .undefined ∧ start ≠ .null ∧ start ≠ .str "" then some start else none) ∧
      upperBound w .quantity =
        (if stop ≠ .undefined ∧ stop ≠ .null ∧ stop ≠ .str "" then some stop else none) := by
  have hk := compileWhere_quantity U f w hw
  have hl := lowerBound_congr _ _ _ hk
  have hu := upperBound_congr _ _ _ hk
  simp only [whereQuantity, hq] at hl hu
  rw [hl, hu, whereRange_lower, whereRange_upper]
  constructor
  · by_cases c : present start = true
    · rw [if_pos c, if_pos ((present_iff start).1 c)]
    · rw [if_neg c, if_neg (fun h => c ((present_iff start).2 h))]
      rfl
  · by_cases c : present stop = true
    · rw [if_pos c, if_pos ((present_iff stop).1 c)]
    · rw [if_neg c, if_neg (fun h => c ((present_iff stop).2 h))]
      rfl

/-- The filter `quantityRange = [5, null]` compiles to the single bound
`quantity >= 5`. -/
theorem findAll_quantityRange_bounds_witness :
    lowerBound [(WKey.quantity, WVal.range { gte := some (.num 5), lte := none })] .quantity
        = some (.num 5) ∧
      upperBound [(WKey.quantity, WVal.range { gte := some (.num 5), lte := none })] .quantity
        = none :=
  findAll_quantityRange_bounds { uuid := fun v => .ok v }
    { quantityRange := some [.num 5, .null] } (.num 5) .null
    [(WKey.quantity, WVal.range { gte := some (.num 5), lte := none })] rfl rfl

/-- Claim C3. The compiled `where` object has a condition on `active` exactly when
`filter.active` is one of `true`, `"true"`, `false`, `"false"`; the condition is
`active = true` for `true` and `"true"`, `active = false` for `false` and `"false"`,
and for every other value the key `active` is not set. -/
theorem findAll_active_condition (U : Utils) (f : Filter) (w : Where)
    (hw : compileWhere U f = .ok w) :
    objGet w .active =
      (if f.active = .bool true ∨ f.active = .str "true" then some (.lit (.bool true))
       else if f.active = .bool false ∨ f.active = .str "false" then
        some (.lit (.bool false))
       else none) := by
  rw [compileWhere_active U f w hw]
  unfold whereActive
  by_cases h1 : f.active = .bool true ∨ f.active = .str "true"
  · have h2 : f.active = .bool true ∨ f.active = .str "true" ∨
        f.active = .bool false ∨ f.active = .str "false" := by tauto
    rw [if_pos h1, if_pos h2, objGet_objSet_same]
    simp [h1]
  · by_cases h3 : f.active = .bool false ∨ f.active = .str "false"
    · have h2 : f.active = .bool true ∨ f.active = .str "true" ∨
          f.active = .bool false ∨ f.active = .str "false" := by tauto
      rw [if_neg h1, if_pos h3, if_pos h2, objGet_objSet_same]
      simp [h1]
    · have h2 : ¬ (f.active = .bool true ∨ f.active = .str "true" ∨
          f.active = .bool false ∨ f.active = .str "false") := by tauto
      rw [if_neg h1, if_neg h3, if_neg h2]
      rfl

/-- The value `"false"` compiles to the condition `active = false`. -/
theorem findAll_active_condition_witness :
    objGet [(WKey.active, WVal.lit (.bool false))] .active = some (.lit (.bool false)) :=
  (findAll_active_condition { uuid := fun v => .ok v } { active := .str "false" }
    [(WKey.active, WVal.lit (.bool false))] rfl).trans rfl

/-- What a successful compilation leaves under the key `Op.and` when `location` is
supplied: the condition on `location`, whatever `item` was. -/
theorem compileWhere_opAnd (U : Utils) (f : Filter) (w : Where)
    (hloc : f.location.truthy = true) (h : compileWhere U f = .ok w) :
    objGet w .opAnd = some (.cond (.ilike "donations" "location" f.location)) := by
  obtain ⟨w1, w2, _, h2, rfl⟩ := compileWhere_steps U f w h
  rw [whereCreatedAt_other f w2 .opAnd (by decide),
    whereUser_other U f _ w2 .opAnd h2 (by decide),
    whereActive_other f _ .opAnd (by decide), whereQuantity_other f _ .opAnd (by decide)]
  unfold whereLocation
  rw [if_pos hloc, objGet_objSet_same]

/-- Claim C1. On the filter `{ item: "rice", location: "delhi" }` the compiled `where`
object holds the condition on `location` alone: the condition on `item`, stored under
the same key `Op.and`, has been overwritten, it occurs nowhere in the tree, and a
donation of bread in Delhi, which fails the condition on `item`, is matched. -/
theorem findAll_item_condition_overwritten (U : Utils) :
    compileWhere U { item := .str "rice", location := .str "delhi" }
        = .ok [(.opAnd, .cond (.ilike "donations" "location" (.str "delhi")))] ∧
      Cond.ilike "donations" "item" (.str "rice")
        ∉ conds [(.opAnd, .cond (.ilike "donations" "location" (.str "delhi")))] ∧
      evalCond breadInDelhi (.ilike "donations" "item" (.str "rice")) = false ∧
      matchesWhere [(.opAnd, .cond (.ilike "donations" "location" (.str "delhi")))]
        breadInDelhi = true := by
  refine ⟨rfl, ?_, rfl, rfl⟩
  simp [conds]

/-! ## The backend, row by row -/

theorem matchesWhere_id (v : JSVal) (r : Row) :
    matchesWhere [(.id, .lit v)] r = decide (r.id = v) := by
  simp [matchesWhere, evalEntry, keyColumn]

theorem matchesWhere_in (ids : List JSVal) (r : Row) :
    matchesWhere [(.id, .opInList ids)] r = decide (r.id ∈ ids) := by
  simp [matchesWhere, evalEntry, keyColumn]

/-- A lookup by identifier commutes with a rewrite of the rows that keeps identifiers. -/
theorem find_id_map (g : Row → Row) (hg : ∀ x, (g x).id = x.id) (id : JSVal)
    (rows : List Row) :
    (rows.map g).find? (fun x => decide (x.id = id))
      = (rows.find? (fun x => decide (x.id = id))).map g := by
  induction rows with
  | nil => rfl
  | cons x rest ih =>
    by_cases hx : x.id = id
    · simp [List.find?, hg, hx]
    · simp [List.find?, hg, hx, ih]

/-- A lookup by a fresh identifier finds the row appended under it. -/
theorem find_id_append (rows : List Row) (r : Row)
    (hfresh : rows.any (fun x => decide (x.id = r.id)) = false) :
    (rows ++ [r]).find? (fun x => decide (x.id = r.id)) = some r := by
  induction rows with
  | nil => simp [List.find?]
  | cons x rest ih =>
    simp only [List.any_cons, Bool.or_eq_false_iff, decide_eq_false_iff_not] at hfresh
    simp [List.find?, hfresh.1, ih hfresh.2]

/-- What a successful insert builds. -/
theorem dbInsert_ok (E : Env) (rows : List Row) (a : Attrs) (r : Row)
    (h : dbInsert E rows a = .ok r) :
    rows.any (fun x => decide (x.id = r.id)) = false ∧ r.item = a.item ∧
      r.quantity = a.quantity ∧ r.location = a.location ∧ r.userId = .null := by
  unfold dbInsert at h
  simp only at h
  generalize (if a.id = JSVal.undefined then E.genId rows else a.id) = id at h
  by_cases h1 : (rows.any fun x => decide (x.id = id)) = true
  · simp [h1] at h
  · by_cases h2 : a.importHash ≠ JSVal.null ∧
        (rows.any fun x => decide (x.importHash = a.importHash)) = true
    · rw [if_neg h1, if_pos h2] at h
      cases h
    · rw [if_neg h1, if_neg h2] at h
      injection h with h
      subst h
      exact ⟨by simpa using h1, rfl, rfl, rfl, rfl⟩

/-- The round trip of `create` and `findBy`, on every `data`: the record found under
the identifier of the created record is the created record. -/
theorem create_findBy (E : Env) (db : Db) (data : Data) (options : Option Options)
    (row : Row) (db1 : Db) (h : create E db data options = (.ok row, db1)) :
    findBy db1 [(.id, .lit row.id)] = some { row := row, user := data.user.orElse .null } ∧
      row.item = data.item.orElse .null ∧ row.quantity = data.quantity.orElse .null := by
  unfold create dbCreate at h
  simp only at h
  split at h
  · rename_i hins
    split at hins <;> cases hins
    cases h
  · rename_i donations d1 hins
    split at hins
    · cases hins
    · rename_i r hr
      simp only [Prod.mk.injEq, Except.ok.injEq] at hins
      obtain ⟨hd, hd1⟩ := hins
      subst hd hd1
      simp only [Prod.mk.injEq, Except.ok.injEq] at h
      obtain ⟨hrow, hdb⟩ := h
      subst hrow hdb
      obtain ⟨hfresh, hi, hq, _, _⟩ := dbInsert_ok E db.rows _ r hr
      have hfind : ((db.rows ++ [r]).map
          (fun x => if x.id = r.id then { x with userId := data.user.orElse .null } else x)).find?
            (fun x => decide (x.id = r.id))
          = some { r with userId := data.user.orElse .null } := by
        rw [find_id_map _ (by intro x; split <;> rfl), find_id_append _ _ hfresh]
        simp
      refine ⟨?_, ?_, ?_⟩
      · simp only [findBy, dbFindOne, getUser, findByPk, setUser]
        have hm : matchesWhere [(WKey.id, WVal.lit r.id)] = fun x => decide (x.id = r.id) := by
          funext x
          exact matchesWhere_id _ _
        rw [hm, hfind]
        simp only [hfind]
      · simpa [setUser, createAttrs] using hi
      · simpa [setUser, createAttrs] using hq

theorem orElse_truthy (a b : JSVal) (h : a.truthy = true) : a.orElse b = a := by
  simp [JSVal.orElse, h]

theorem orElse_undefined (b : JSVal) : JSVal.undefined.orElse b = b := rfl

/-- Claim C4, as amended. Round trip of `create` and `findBy`: for every truthy `item`
(a non-empty string) and truthy `quantity` (a non-zero number) supplied in `data` with
no `user`, when `create(data)` succeeds, `findBy({ id })` on the identifier of the
created record returns a record whose `item` and `quantity` are the supplied ones and
whose `user` is null. -/
theorem create_findBy_round_trip (E : Env) (db : Db) (data : Data)
    (options : Option Options) (row : Row) (db1 : Db)
    (hcreate : create E db data options = (.ok row, db1))
    (huser : data.user = .undefined)
    (hitem : data.item.truthy = true) (hquantity : data.quantity.truthy = true) :
    ∃ out, findBy db1 [(.id, .lit row.id)] = some out ∧
      out.row.item = data.item ∧ out.row.quantity = data.quantity ∧ out.user = .null := by
  obtain ⟨hfind, hi, hq⟩ := create_findBy E db data options row db1 hcreate
  refine ⟨_, hfind, ?_, ?_, ?_⟩
  · simpa [orElse_truthy _ _ hitem] using hi
  · simpa [orElse_truthy _ _ hquantity] using hq
  · simp [huser, orElse_undefined]

/-- The spec's example: `create({ item: "rice", quantity: 10 })` in the empty store,
then `findBy({ id })`. -/
theorem create_findBy_round_trip_witness :
    ∃ out, findBy (create sampleEnv emptyDb { item := .str "rice", quantity := .num 10 } none).2
        [(.id, .lit (.num 1))] = some out ∧
      out.row.item = .str "rice" ∧ out.row.quantity = .num 10 ∧ out.user = .null :=
  create_findBy_round_trip sampleEnv emptyDb { item := .str "rice", quantity := .num 10 } none
    riceRow (create sampleEnv emptyDb { item := .str "rice", quantity := .num 10 } none).2
    rfl rfl rfl rfl

/-- Claim C4, counterexample. `create({ item: "rice", quantity: 0 })` in the empty store
succeeds with identifier 1, and `findBy({ id: 1 })` then returns `quantity = null`,
not the supplied `0`. -/
theorem create_findBy_zero_quantity :
    (create sampleEnv emptyDb { item := .str "rice", quantity := .num 0 } none).1.toOption.map
        Row.id = some (.num 1) ∧
      (findBy (create sampleEnv emptyDb { item := .str "rice", quantity := .num 0 } none).2
        [(.id, .lit (.num 1))]).map (fun out => out.row.quantity) = some .null ∧
      JSVal.null ≠ JSVal.num 0 :=
  ⟨rfl, rfl, by decide⟩

/-- What `update` does to an existing record, on every `data`: the instance returned
and the row stored afterwards. -/
theorem update_existing (E : Env) (db : Db) (id : JSVal) (data : Data)
    (options : Option Options) (r0 : Row) (hfound : findByPk db id = some r0) :
    (update E db id data options).1 =
        .ok { applyPatch E (updatePatch data (currentUserId options)) r0 with
            userId := data.user.orElse .null } ∧
      findByPk (update E db id data options).2 id =
        some { applyPatch E (updatePatch data (currentUserId options)) r0 with
            userId := data.user.orElse .null } := by
  have hid : r0.id = id := by
    have := List.find?_some hfound
    simpa using this
  constructor
  · simp only [update, hfound, setUser, rowUpdate]
  · unfold update
    rw [hfound]
    simp only [setUser, rowUpdate, findByPk, List.map_map]
    rw [find_id_map _ (by intro x; simp only [Function.comp]; split <;> split <;> rfl)]
    unfold findByPk at hfound
    rw [hfound]
    simp [applyPatch, hid]

/-- Claim C5, as amended. `update` overwrites and never merges: for every existing
record and every `data`, after `update(id, data, actor)` each of `item`, `quantity`
and `location` equals the value given in `data` when that value is truthy and is null
when `data` omits it, whatever the record held before; `updatedById` is the actor's
id; the `user` association is `data.user`, or cleared when `data.user` is absent;
`id`, `importHash` and `createdById` are unchanged. This holds of the instance
returned and of the row stored under `id`. -/
theorem update_overwrites (E : Env) (db : Db) (id : JSVal) (data : Data)
    (options : Option Options) (r0 : Row) (hfound : findByPk db id = some r0) :
    ∃ r, (update E db id data options).1 = .ok r ∧
      findByPk (update E db id data options).2 id = some r ∧
      (data.item.truthy = true → r.item = data.item) ∧
      (data.item = .undefined → r.item = .null) ∧
      (data.quantity.truthy = true → r.quantity = data.quantity) ∧
      (data.quantity = .undefined → r.quantity = .null) ∧
      (data.location.truthy = true → r.location = data.location) ∧
      (data.location = .undefined → r.location = .null) ∧
      r.updatedById = currentUserId options ∧
      (data.user.truthy = true → r.userId = data.user) ∧
      (data.user = .undefined → r.userId = .null) ∧
      r.id = r0.id ∧ r.importHash = r0.importHash ∧ r.createdById = r0.createdById := by
  obtain ⟨h1, h2⟩ := update_existing E db id data options r0 hfound
  refine ⟨_, h1, h2, ?_, ?_, ?_, ?_, ?_, ?_, rfl, ?_, ?_, rfl, rfl, rfl⟩
  · intro h
    simp [applyPatch, updatePatch, orElse_truthy _ _ h]
  · intro h
    simp [applyPatch, updatePatch, h, orElse_undefined]
  · intro h
    simp [applyPatch, updatePatch, orElse_truthy _ _ h]
  · intro h
    simp [applyPatch, updatePatch, h, orElse_undefined]
  · intro h
    simp [applyPatch, updatePatch, orElse_truthy _ _ h]
  · intro h
    simp [applyPatch, updatePatch, h, orElse_undefined]
  · intro h
    simp [orElse_truthy _ _ h]
  · intro h
    simp [h, orElse_undefined]

/-- The spec's example: `update(id, { item: "beans" })` on the donation of bread
resets `quantity` to null. -/
theorem update_overwrites_witness :
    ∃ r, (update sampleEnv breadDb (.str "d1") { item := .str "beans" } none).1 = .ok r ∧
      findByPk (update sampleEnv breadDb (.str "d1") { item := .str "beans" } none).2
        (.str "d1") = some r ∧
      r.item = .str "beans" ∧ r.quantity = .null ∧ r.location = .null := by
  obtain ⟨r, h1, h2, h3, _, _, h4, _, h5, _⟩ :=
    update_overwrites sampleEnv breadDb (.str "d1") { item := .str "beans" } none
      breadInDelhi rfl
  exact ⟨r, h1, h2, h3 rfl, h4 rfl, h5 rfl⟩

/-- Claim C5, counterexample. `update("d1", { quantity: 0 })` on the donation of bread
stores `quantity = null`, not the value `0` given in `data`. -/
theorem update_zero_quantity :
    (findByPk (update sampleEnv breadDb (.str "d1") { quantity := .num 0 } none).2
        (.str "d1")).map Row.quantity = some .null ∧
      JSVal.null ≠ JSVal.num 0 :=
  ⟨rfl, by decide⟩

/-- Claim C6, as amended. For every identifier that matches no record in the store,
`update(id, data, actor)` and `remove(id, actor)` both fail, with the `TypeError` of
calling a method on the `null` that the lookup returned, and leave the store
unchanged. -/
theorem update_remove_missing (E : Env) (db : Db) (id : JSVal) (data : Data)
    (options : Option Options) (hmissing : ∀ r ∈ db.rows, r.id ≠ id) :
    update E db id data options = (.error .typeError, db) ∧
      remove E db id options = (.error .typeError, db) := by
  have hnone : findByPk db id = none := by
    unfold findByPk
    rw [List.find?_eq_none]
    intro r hr
    simpa using hmissing r hr
  simp [update, remove, hnone]

/-- In the store holding the donation `d1`, the identifier `d9` matches nothing. -/
theorem update_remove_missing_witness :
    update sampleEnv breadDb (.str "d9") {} none = (.error .typeError, breadDb) ∧
      remove sampleEnv breadDb (.str "d9") none = (.error .typeError, breadDb) :=
  update_remove_missing sampleEnv breadDb (.str "d9") {} none (by decide)

/-- Claim C6, counterexample. On the identifier `d9`, which matches no record of the
store, the error of `update` and of `remove` is a `TypeError`, not `NotFound`. -/
theorem missing_id_raises_typeError :
    (update sampleEnv breadDb (.str "d9") {} none).1 = .error .typeError ∧
      (update sampleEnv breadDb (.str "d9") {} none).1 ≠ .error .notFound ∧
      (remove sampleEnv breadDb (.str "d9") none).1 = .error .typeError ∧
      (remove sampleEnv breadDb (.str "d9") none).1 ≠ .error .notFound := by
  refine ⟨rfl, ?_, rfl, ?_⟩
  · intro h
    have h2 : (Except.error DbError.typeError : Except DbError Row)
        = .error .notFound := h
    injection h2 with h3
    cases h3
  · intro h
    have h2 : (Except.error DbError.typeError : Except DbError Row)
        = .error .notFound := h
    injection h2 with h3
    cases h3

/-! ## The two phases of `deleteByIds` -/

theorem loadByIds_eq (db : Db) (ids : List JSVal) :
    loadByIds db ids = db.rows.filter (fun r => decide (r.id ∈ ids)) := by
  have hm : matchesWhere [(WKey.id, WVal.opInList ids)] = fun r => decide (r.id ∈ ids) := by
    funext r
    exact matchesWhere_in ids r
  have hp : projectRow none = id := by
    funext r
    rfl
  simp [loadByIds, dbFindAll, applyPage, applyOrder, hp, hm]

theorem markAll_spec (E : Env) (actor : JSVal) (rs : List Row) (db : Db) :
    (markAll E actor rs db).1 = rs.map (applyPatch E { deletedBy := some actor }) ∧
      (markAll E actor rs db).2.log =
        db.log ++ rs.map (fun r => Write.update r.id { deletedBy := some actor }) := by
  induction rs generalizing db with
  | nil => simp [markAll]
  | cons r rest ih =>
    have h := ih (rowUpdate E db r { deletedBy := some actor }).2
    simp only [markAll, List.map_cons, h.1, h.2]
    simp [rowUpdate]

theorem destroyAll_log (rs : List Row) (db : Db) :
    (destroyAll rs db).log = db.log ++ rs.map (fun r => Write.destroy r.id) := by
  induction rs generalizing db with
  | nil => simp [destroyAll]
  | cons r rest ih => simp [destroyAll, ih, rowDestroy]

/-- Claim C7. Two-phase delete in `deleteByIds`: for every list of ids and every store,
the writes issued are one `deletedBy = actor` update per loaded record followed by
one destroy per loaded record, over the same records in the same order, so every
mark precedes every destroy; the loaded records are the stored rows whose id is among
the ids, so an id that matches no row contributes no write; the value returned is the
list of loaded records, the instances the marks were applied to. -/
theorem deleteByIds_two_phase (E : Env) (db : Db) (ids : List JSVal)
    (options : Option Options) :
    (deleteByIds E db ids options).2.log =
        db.log ++
          (db.rows.filter (fun r => decide (r.id ∈ ids))).map
            (fun r => Write.update r.id { deletedBy := some (currentUserId options) }) ++
          (db.rows.filter (fun r => decide (r.id ∈ ids))).map (fun r => Write.destroy r.id) ∧
      (deleteByIds E db ids options).1 =
        (db.rows.filter (fun r => decide (r.id ∈ ids))).map
          (applyPatch E { deletedBy := some (currentUserId options) }) ∧
      (deleteByIds E db ids options).1.map Row.id =
        (db.rows.filter (fun r => decide (r.id ∈ ids))).map Row.id ∧
      (∀ id, (∀ r ∈ db.rows, r.id ≠ id) →
        ∀ wr ∈ (db.rows.filter (fun r => decide (r.id ∈ ids))).map
              (fun r => Write.update r.id { deletedBy := some (currentUserId options) }) ++
            (db.rows.filter (fun r => decide (r.id ∈ ids))).map (fun r => Write.destroy r.id),
          wr ≠ Write.update id { deletedBy := some (currentUserId options) } ∧
            wr ≠ Write.destroy id) := by
  obtain ⟨hm1, hm2⟩ := markAll_spec E (currentUserId options) (loadByIds db ids) db
  rw [loadByIds_eq] at hm1 hm2
  refine ⟨?_, ?_, ?_, ?_⟩
  · simp only [deleteByIds, destroyAll_log, loadByIds_eq, hm1, hm2, List.map_map]
    rfl
  · simp only [deleteByIds, loadByIds_eq, hm1]
  · simp only [deleteByIds, loadByIds_eq, hm1, List.map_map]
    rfl
  · intro id hid wr hwr
    simp only [List.mem_append, List.mem_map, List.mem_filter] at hwr
    rcases hwr with ⟨r, ⟨hr, _⟩, rfl⟩ | ⟨r, ⟨hr, _⟩, rfl⟩
    · refine ⟨?_, by simp⟩
      intro h
      injection h with h _
      exact hid r hr h
    · refine ⟨by simp, ?_⟩
      intro h
      injection h with h
      exact hid r hr h

/-! ## The batch of `bulkImport` -/

theorem bulkRowsFrom_length (actor : JSVal) (clock : Nat → Int) (i : Nat) (data : List Data) :
    (bulkRowsFrom actor clock i data).length = data.length := by
  induction data generalizing i with
  | nil => rfl
  | cons item rest ih => simp [bulkRowsFrom, ih]

theorem bulkRowsFrom_get (actor : JSVal) (clock : Nat → Int) (i k : Nat) (data : List Data) :
    (bulkRowsFrom actor clock i data)[k]? =
      data[k]?.map (fun item => bulkRow actor (clock (i + k)) item (i + k)) := by
  induction data generalizing i k with
  | nil => simp [bulkRowsFrom]
  | cons item rest ih =>
    cases k with
    | zero => simp [bulkRowsFrom]
    | succ k =>
      simp only [bulkRowsFrom, List.getElem?_cons_succ, ih]
      have : i + 1 + k = i + (k + 1) := by omega
      rw [this]

theorem donationsData_get (actor : JSVal) (clock : Nat → Int) (k : Nat) (data : List Data) :
    (donationsData actor clock data)[k]? =
      data[k]?.map (fun item => bulkRow actor (clock k) item k) := by
  unfold donationsData
  rw [bulkRowsFrom_get]
  simp

/-- Claim C8. For every input list of `bulkImport`, the batch handed to the backend has
the length and order of the input; its `i`-th row carries the attributes of the
`i`-th item with the null-defaulting of `create` and `createdById = updatedById =
actor`, and is stamped `createdAt = now + i * 1000` milliseconds; with a clock that
never goes back the stamps are strictly increasing in input order. -/
theorem bulkImport_batch (E : Env) (clock : Nat → Int) (db : Db) (data : List Data)
    (options : Option Options) (hclock : Monotone clock) :
    bulkImport E clock db data options =
        dbBulkCreate E db (donationsData (currentUserId options) clock data) ∧
      (∀ rows db1, bulkImport E clock db data options = (.ok rows, db1) →
        db1.log = db.log ++ [.bulkCreate (donationsData (currentUserId options) clock data)]) ∧
      (donationsData (currentUserId options) clock data).length = data.length ∧
      (∀ (i : Nat) (item : Data), data[i]? = some item →
        ∃ row : Attrs, (donationsData (currentUserId options) clock data)[i]? = some row ∧
          row.id = (createAttrs item (currentUserId options)).id ∧
          row.item = (createAttrs item (currentUserId options)).item ∧
          row.quantity = (createAttrs item (currentUserId options)).quantity ∧
          row.location = (createAttrs item (currentUserId options)).location ∧
          row.importHash = (createAttrs item (currentUserId options)).importHash ∧
          row.item = item.item.orElse .null ∧
          row.createdById = currentUserId options ∧
          row.updatedById = currentUserId options ∧
          row.createdAt = .num (clock i + i * 1000)) ∧
      (∀ (i j : Nat) (ri rj : Attrs), i < j →
        (donationsData (currentUserId options) clock data)[i]? = some ri →
        (donationsData (currentUserId options) clock data)[j]? = some rj →
        ∃ ti tj : Int, ri.createdAt = .num ti ∧ rj.createdAt = .num tj ∧ ti < tj) := by
  refine ⟨rfl, ?_, bulkRowsFrom_length _ _ _ _, ?_, ?_⟩
  · intro rows db1 h
    unfold bulkImport dbBulkCreate at h
    split at h
    · cases h
    · simp only [Prod.mk.injEq] at h
      rw [← h.2]
  · intro i item hi
    refine ⟨bulkRow (currentUserId options) (clock i) item i, ?_, rfl, rfl, rfl, rfl, rfl, rfl,
      rfl, rfl, rfl⟩
    rw [donationsData_get, hi]
    rfl
  · intro i j ri rj hij hi hj
    rw [donationsData_get] at hi hj
    rcases hdi : data[i]? with _ | di
    · simp [hdi] at hi
    rcases hdj : data[j]? with _ | dj
    · simp [hdj] at hj
    simp only [hdi, hdj, Option.map_some', Option.some.injEq] at hi hj
    subst hi hj
    refine ⟨clock i + i * 1000, clock j + j * 1000, rfl, rfl, ?_⟩
    have h1 : clock i ≤ clock j := hclock (Nat.le_of_lt hij)
    have h2 : (i : Int) < (j : Int) := by exact_mod_cast hij
    omega

/-- The spec's example: three items imported under a clock that stands still at 0 are
stamped 0, 1000 and 2000. -/
theorem bulkImport_batch_witness :
    (donationsData .null (fun _ => 0)
        [{ item := .str "a" }, { item := .str "b" }, { item := .str "c" }]).length = 3 ∧
      ∃ ti tj : Int, (bulkRow .null 0 { item := .str "a" } 0).createdAt = .num ti ∧
        (bulkRow .null 0 { item := .str "c" } 2).createdAt = .num tj ∧ ti < tj :=
  ⟨(bulkImport_batch sampleEnv (fun _ => 0) emptyDb
      [{ item := .str "a" }, { item := .str "b" }, { item := .str "c" }] none
      monotone_const).2.2.1,
    (bulkImport_batch sampleEnv (fun _ => 0) emptyDb
      [{ item := .str "a" }, { item := .str "b" }, { item := .str "c" }] none
      monotone_const).2.2.2.2 0 2 _ _ (by decide) rfl rfl⟩

/-! ## Autocomplete -/

theorem projectRow_id_item (r : Row) :
    (projectRow (some ["id", "item"]) r).id = r.id ∧
      (projectRow (some ["id", "item"]) r).item = r.item := by
  simp [projectRow]

theorem matchesWhere_autocomplete (v query : JSVal) (r : Row) :
    matchesWhere [(.opOr, .alts [.idEq v, .ilike "donations" "item" query])] r = true ↔
      (r.id = v ∨ ∃ t, r.item = .str t ∧ containsCI query.toStr t = true) := by
  simp only [matchesWhere, evalEntry, keyColumn, evalCond, columnByName, List.all_cons,
    List.all_nil, List.any_cons, List.any_nil, Bool.and_true, Bool.or_false, if_true,
    Bool.or_eq_true, decide_eq_true_eq]
  have hne : ("item" = "id") = False := by decide
  simp only [hne, if_false, if_true]
  constructor
  · rintro (h | h)
    · exact Or.inl h
    · right
      split at h
      · rename_i t ht
        exact ⟨t, ht, h⟩
      · cases h
  · rintro (h | ⟨t, ht, hc⟩)
    · exact Or.inl h
    · right
      rw [ht]
      exact hc

/-! ## Pagination arithmetic -/

theorem bitsOf_le (fuel n k : Nat) (h : n < 2 ^ k) : bitsOf fuel n ≤ k := by
  induction fuel generalizing n k with
  | zero => simp [bitsOf]
  | succ fuel ih =>
    unfold bitsOf
    split
    · exact Nat.zero_le _
    · rename_i hn
      cases k with
      | zero =>
        simp at h
        exact absurd h hn
      | succ k =>
        have : n / 2 < 2 ^ k := by
          rw [Nat.div_lt_iff_lt_mul (by decide)]
          rw [Nat.pow_succ] at h
          exact h
        have := ih (n / 2) k this
        omega

/-- An integer of at most 53 binary digits is a double. -/
theorem roundInt_small (z : Int) (h : z.natAbs < 2 ^ 53) : roundInt z = .int z := by
  have hlen : bitLength z.natAbs ≤ 53 := bitsOf_le _ _ _ h
  have he : bitLength z.natAbs - 53 = 0 := by omega
  unfold roundInt
  simp only [he, pow_zero, Nat.div_one, Nat.mod_one, Nat.mul_one]
  have hv : ¬ 1024 < bitLength z.natAbs := by omega
  simp only [Nat.mul_zero, gt_iff_lt, Nat.not_lt_zero, false_or, Nat.zero_ne_one, false_and,
    if_false, hv]
  split
  · rename_i hz
    rw [Int.ofNat_natAbs_of_nonpos (Int.le_of_lt hz)]
    simp
  · rename_i hz
    rw [Int.natAbs_of_nonneg (Int.not_lt.1 hz)]

theorem mul_small (p n : Nat) (h : p * n < 2 ^ 53) :
    (Num.int p).mul (.int n) = .int ((p * n : Nat) : Int) := by
  show roundInt ((p : Int) * (n : Int)) = _
  rw [roundInt_small]
  · push_cast
    rfl
  · have : ((p : Int) * (n : Int)).natAbs = p * n := by
      rw [Int.natAbs_mul]
      simp
    rw [this]
    exact h

/-- Claim C9, as amended. Pagination and ordering in `findAll`: for every filter
whose `limit` is truthy and coerces to a natural number `n` and whose `page` coerces
to a natural number `p` with `p * n` below `2 ^ 53` (at most
`Number.MAX_SAFE_INTEGER`), the query sent to the backend has `limit = n` and
`offset = p * n`, an offset of zero being sent as no offset; the query carries no
limit exactly when `filter.limit` is falsy, as it is when absent or the number `0`;
the order is `[field, sort]` when both are supplied and creation time descending
otherwise; with `countOnly` set the result is `rows = []` with a count computed from
the same `where`, limit and offset as the paged query uses. -/
theorem findAll_pagination_and_order (R : Runtime) (U : Utils) (db : Db) (f : Filter)
    (options : Option Options) (w : Where) (hw : compileWhere U f = .ok w) :
    (∀ n p : Nat, f.limit.truthy = true → toNumber R f.limit = .int n →
        toNumber R f.page = .int p → p * n < 2 ^ 53 →
        (pageOptions R f w).limit = some (.int n) ∧
          (pageOptions R f w).offset =
            (if p * n = 0 then none else some (.int ((p * n : Nat) : Int)))) ∧
      ((pageOptions R f w).limit = none ↔ f.limit.truthy = false) ∧
      (f.limit = .undefined ∨ f.limit = .num 0 → (pageOptions R f w).limit = none) ∧
      (f.field.truthy = true ∧ f.sort.truthy = true →
        (pageOptions R f w).order = some [(f.field, f.sort)]) ∧
      (¬ (f.field.truthy = true ∧ f.sort.truthy = true) →
        (pageOptions R f w).order = some [(.str "createdAt", .str "desc")]) ∧
      (pageOptions R f w).whereClause = w ∧
      countOptions R f w = pageOptions R f w ∧
      (countOnly options = true →
        findAll R U db f options =
          .ok { rows := [], count := dbCount db (countOptions R f w) }) ∧
      (countOnly options = false →
        findAll R U db f options =
          .ok { rows := dbFindAll db (pageOptions R f w),
                count := dbCount db (pageOptions R f w) }) := by
  have hfalsy : f.limit.truthy = false → (pageOptions R f w).limit = none := by
    intro h
    have hl : pageLimit f = .num 0 := by
      unfold pageLimit JSVal.orElse
      rw [h]
      rfl
    unfold pageOptions limitOption
    rw [hl]
    rfl
  refine ⟨?_, ⟨?_, hfalsy⟩, ?_, ?_, ?_, rfl, rfl, ?_, ?_⟩
  · intro n p ht hn hp hpn
    have hl : pageLimit f = f.limit := by simp [pageLimit, JSVal.orElse, ht]
    constructor
    · simp [pageOptions, limitOption, hl, ht, hn]
    · simp only [pageOptions, offsetOption, pageOffset, hl, hn, hp, mul_small p n hpn,
        Num.truthy]
      by_cases hz : p * n = 0
      · simp [hz]
      · have hne : ((p * n : Nat) : Int) ≠ 0 := by exact_mod_cast hz
        rw [if_neg hz]
        have hb : (((p * n : Nat) : Int) != 0) = true := by
          simpa using hne
        rw [hb]
        rfl
  · intro h
    by_cases ht : f.limit.truthy = true
    · simp [pageOptions, limitOption, pageLimit, JSVal.orElse, ht] at h
    · simpa using ht
  · rintro (h | h) <;> apply hfalsy <;> rw [h] <;> rfl
  · intro h
    simp [pageOptions, orderOption, JSVal.andAlso, h.1, h.2]
  · intro h
    have : (f.field.truthy && f.sort.truthy) = false := by
      rcases hf : f.field.truthy <;> rcases hs : f.sort.truthy <;> simp_all
    simp [pageOptions, orderOption, JSVal.andAlso, this]
  · intro h
    simp [findAll, hw, h]
  · intro h
    simp [findAll, hw, h, dbFindAndCountAll]

/-- Page 2 of size 10 is sent as `limit = 10`, `offset = 20`, and with `countOnly`
over the store of one donation the result is no rows and the count 1. -/
theorem findAll_pagination_and_order_witness :
    (pageOptions digitRuntime { limit := .num 10, page := .num 2 } []).limit
        = some (.int 10) ∧
      (pageOptions digitRuntime { limit := .num 10, page := .num 2 } []).offset
        = some (.int 20) ∧
      findAll digitRuntime plainUtils breadDb { limit := .num 10, page := .num 2 }
        (some { countOnly := true }) = .ok { rows := [], count := 1 } :=
  ⟨((findAll_pagination_and_order digitRuntime plainUtils breadDb
      { limit := .num 10, page := .num 2 } (some { countOnly := true }) [] rfl).1
      10 2 rfl rfl rfl (by decide)).1,
    ((findAll_pagination_and_order digitRuntime plainUtils breadDb
      { limit := .num 10, page := .num 2 } (some { countOnly := true }) [] rfl).1
      10 2 rfl rfl rfl (by decide)).2.trans rfl,
    ((findAll_pagination_and_order digitRuntime plainUtils breadDb
      { limit := .num 10, page := .num 2 } (some { countOnly := true }) [] rfl).2.2.2.2.2.2.2.1
      rfl).trans rfl⟩

/-- Claim C9, counterexample. With page and page size both the number 94906267 the
offset sent is 9007199515875288, the double product, not `p * n`, which is
9007199515875289; and with the page size given as the string `"0"`, which is truthy,
the query carries the limit 0 instead of no limit. -/
theorem findAll_offset_rounded :
    compileWhere plainUtils { limit := .num 94906267, page := .num 94906267 } = .ok [] ∧
      (pageOptions digitRuntime { limit := .num 94906267, page := .num 94906267 } []).offset
        = some (.int 9007199515875288) ∧
      (9007199515875288 : Int) ≠ 94906267 * 94906267 ∧
      compileWhere plainUtils { limit := .str "0", page := .num 0 } = .ok [] ∧
      (pageOptions digitRuntime { limit := .str "0", page := .num 0 } []).limit
        = some (.int 0) :=
  ⟨rfl, rfl, by decide, rfl, rfl⟩

/-! ## The results of autocomplete -/

/-- The list `findAllAutocomplete` returns, in terms of the table. -/
theorem findAllAutocomplete_eq (R : Runtime) (U : Utils) (db : Db) (query limit : JSVal)
    (out : List Suggestion) (h : findAllAutocomplete R U db query limit = .ok out) :
    ∃ w, autocompleteWhere U query = .ok w ∧
      out = (applyPage none (limitOption R limit)
          (db.rows.filter (matchesWhere w))).map
        (fun r => ({ id := r.id, label := r.item } : Suggestion)) := by
  unfold findAllAutocomplete at h
  split at h
  · cases h
  · rename_i w hw
    injection h with h
    refine ⟨w, hw, ?_⟩
    rw [← h]
    simp only [dbFindAll, autocompleteOptions, applyOrder, List.map_map]
    apply List.map_congr_left
    intro r _
    simp [Function.comp, projectRow_id_item]

/-- The `where` object of a non-empty query selects by the matching rule of the
specification. -/
theorem matchesWhere_specSuggests (v query : JSVal) :
    matchesWhere [(.opOr, .alts [.idEq v, .ilike "donations" "item" query])]
      = specSuggests v query := by
  funext r
  have hne : ("item" = "id") = False := by decide
  simp only [matchesWhere, evalEntry, keyColumn, evalCond, columnByName, specSuggests,
    List.all_cons, List.all_nil, List.any_cons, List.any_nil, Bool.and_true, Bool.or_false,
    if_true, hne, if_false]

/-- The records an autocomplete query selects, before the limit is applied. -/
theorem autocompleteWhere_matched (U : Utils) (db : Db) (query : JSVal) (w : Where)
    (hw : autocompleteWhere U query = .ok w) :
    (query.truthy = false → db.rows.filter (matchesWhere w) = db.rows) ∧
      (query.truthy = true → ∃ v, U.uuid query = .ok v ∧
        db.rows.filter (matchesWhere w) = db.rows.filter (specSuggests v query)) := by
  unfold autocompleteWhere at hw
  constructor
  · intro hq
    rw [hq] at hw
    injection hw with hw
    subst hw
    simp [matchesWhere]
  · intro hq
    rw [hq] at hw
    simp only [if_true] at hw
    split at hw
    · cases hw
    · rename_i v hv
      injection hw with hw
      subst hw
      exact ⟨v, hv, by rw [matchesWhere_specSuggests]⟩

/-- Claim C10, as amended. For every query and limit on which
`findAllAutocomplete(query, limit)` succeeds, the result lists pairs `{ id, label }`
of matched records, `label` being the record's `item` and no record being used more
often than it is stored; when the query is non-empty the matched records are exactly
those whose id equals the normalized query or whose `item` contains the query
case-insensitively, and when the query is empty every record matches; when `limit`
is falsy, as `0` and an absent limit are, every matched record is returned, and when
`limit` is truthy and coerces to the natural number `n`, the number of results is
the smaller of `n` and the number of matched records, so that every matched record
is returned when there are at most `n` of them. -/
theorem findAllAutocomplete_result (R : Runtime) (U : Utils) (db : Db)
    (query limit : JSVal) (out : List Suggestion)
    (h : findAllAutocomplete R U db query limit = .ok out) :
    ∃ matched records : List Row,
      (query.truthy = false → matched = db.rows) ∧
      (query.truthy = true → ∃ v, U.uuid query = .ok v ∧
        matched = db.rows.filter (specSuggests v query)) ∧
      records.Subperm matched ∧
      out = records.map (fun r => ({ id := r.id, label := r.item } : Suggestion)) ∧
      (limit.truthy = false → records.Perm matched) ∧
      (∀ n : Nat, limit.truthy = true → toNumber R limit = .int n →
        records.length = min n matched.length ∧
          (matched.length ≤ n → records.Perm matched)) := by
  obtain ⟨w, hw, hout⟩ := findAllAutocomplete_eq R U db query limit out h
  obtain ⟨hempty, hquery⟩ := autocompleteWhere_matched U db query w hw
  refine ⟨db.rows.filter (matchesWhere w),
    applyPage none (limitOption R limit) (db.rows.filter (matchesWhere w)),
    hempty, hquery, ?_, hout, ?_, ?_⟩
  · unfold applyPage
    simp only
    split
    · exact List.Subperm.refl _
    · exact (List.take_sublist _ _).subperm
  · intro hl
    simp [applyPage, limitOption, hl]
  · intro n hl hn
    have hlim : limitOption R limit = some (.int n) := by
      simp [limitOption, hl, hn]
    simp only [applyPage, hlim, rowCount, Int.toNat_ofNat]
    constructor
    · simp [List.length_take]
    · intro hle
      rw [List.take_of_length_le hle]

/-- The spec's example: the query `"ri"` with limit 5 over donations of rice, rim and
bread returns rice and rim, the two matched records. -/
theorem findAllAutocomplete_result_witness :
    findAllAutocomplete digitRuntime plainUtils pantryDb (.str "ri") (.num 5)
        = .ok [{ id := .num 1, label := .str "rice" }, { id := .num 2, label := .str "rim" }] ∧
      ∃ records : List Row,
        records.Perm (pantryDb.rows.filter (specSuggests (.str "ri") (.str "ri"))) ∧
          [({ id := .num 1, label := .str "rice" } : Suggestion),
              { id := .num 2, label := .str "rim" }]
            = records.map (fun r => ({ id := r.id, label := r.item } : Suggestion)) := by
  refine ⟨rfl, ?_⟩
  obtain ⟨matched, records, _, hq, _, hout, _, hlim⟩ :=
    findAllAutocomplete_result digitRuntime plainUtils pantryDb (.str "ri") (.num 5)
      [{ id := .num 1, label := .str "rice" }, { id := .num 2, label := .str "rim" }] rfl
  obtain ⟨v, hv, hm⟩ := hq rfl
  have hv1 : (Except.ok (JSVal.str "ri") : Except DbError JSVal) = .ok v := hv
  injection hv1 with hv1
  subst hv1
  subst hm
  exact ⟨records, (hlim 5 rfl rfl).2 (by decide), hout⟩

/-- Claim C10, counterexample. With the limit `0` and the empty query over a store of
one record, `findAllAutocomplete` returns one result, which is more than `limit`. -/
theorem findAllAutocomplete_limit_zero :
    findAllAutocomplete digitRuntime plainUtils breadDb (.str "") (.num 0)
        = .ok [{ id := .str "d1", label := .str "bread" }] ∧
      ¬ [({ id := .str "d1", label := .str "bread" } : Suggestion)].length ≤ 0 :=
  ⟨rfl, by decide⟩

/-- The ordering of `findAllAutocomplete` is passed under the key `orderBy`, which
the query primitive does not read: over a store holding rim before rice the labels
come back in table order, whereas the same query with the pair under `order` would
return rice first. -/
theorem findAllAutocomplete_table_order :
    findAllAutocomplete digitRuntime plainUtils rimRiceDb (.str "") (.num 5)
        = .ok [{ id := .num 2, label := .str "rim" }, { id := .num 1, label := .str "rice" }] ∧
      (dbFindAll rimRiceDb { order := some [(.str "item", .str "ASC")] }).map Row.item
        = [.str "rice", .str "rim"] :=
  ⟨rfl, rfl⟩

/-! ## The acting user -/

/-- With the acting user `u1`, `deleteByIds(["d1", "d9"])` over the store of the
donation `d1` issues the mark `deletedBy = u1` and then the destroy, both on `d1`,
and leaves the table empty. -/
theorem deleteByIds_example :
    (deleteByIds sampleEnv breadDb [.str "d1", .str "d9"]
        (some { currentUser := some { id := .str "u1" } })).2 =
      { rows := []
        log := [.update (.str "d1") { deletedBy := some (.str "u1") }, .destroy (.str "d1")] } ∧
      (deleteByIds sampleEnv breadDb [.str "d1", .str "d9"]
        (some { currentUser := some { id := .str "u1" } })).1.map Row.deletedBy
        = [.str "u1"] :=
  ⟨rfl, rfl⟩

/-- With the acting user `u1`, `update` stamps `updatedById = u1` and `bulkImport`
stamps `createdById = updatedById = u1` on every row of the batch. -/
theorem actor_example :
    (findByPk (update sampleEnv breadDb (.str "d1") { item := .str "beans" }
        (some { currentUser := some { id := .str "u1" } })).2 (.str "d1")).map Row.updatedById
        = some (.str "u1") ∧
      (donationsData (currentUserId (some { currentUser := some { id := .str "u1" } }))
        (fun _ => 0) [{ item := .str "a" }, { item := .str "b" }]).map
          (fun a => (a.createdById, a.updatedById, a.createdAt))
        = [(.str "u1", .str "u1", .num 0), (.str "u1", .str "u1", .num 1000)] :=
  ⟨rfl, rfl⟩

end HopeConnect
